import Mathlib

set_option maxHeartbeats 1000000
set_option linter.unusedVariables false

/- Verification development for the DTX secure socket proxy client
   (pymobiledevice3/services/dvt/dvt_secure_socket_proxy.py).

   The embedding has three layers, mirroring the source:
   1. a byte-level payload codec for send_message encoding and recv_message
      decoding (the wire structs and the keyed-archive codec live outside
      this repository, so those two pieces are modelled from the spec);
   2. the fragment reassembly loop of _recv_packet_fragments;
   3. a session state machine covering send_message identifier sequencing,
      perform_handshake, make_channel and the channel proxy. -/

/- ===== Byte-level helpers ===== -/

/-- Little-endian encoding of a natural number into w bytes (values taken
mod 256 per byte, as the construct integer fields do on build). -/
def toLE : Nat → Nat → List Nat
  | 0, _ => []
  | w + 1, n => n % 256 :: toLE w (n / 256)

/-- Little-endian decoding of a byte list into a natural number. -/
def fromLE : List Nat → Nat
  | [] => 0
  | b :: bs => b + 256 * fromLE bs

/-- Read exactly k bytes from a stream, mirroring recv and parse_stream
semantics of the construct structs: fail on a short stream. -/
def readN (k : Nat) (s : List Nat) : Option (List Nat × List Nat) :=
  if k ≤ s.length then some (s.take k, s.drop k) else none

/-- Twos-complement encoding of a signed 64-bit integer, as Int64sl
builds it: the value reduced into [0, 2^64) and written little-endian. -/
def encodeI64 (n : Int) : List Nat := toLE 8 (n % 18446744073709551616).toNat

/-- Twos-complement decoding of eight little-endian bytes into a signed
integer, as Int64sl parses it. -/
def decodeI64 (bs : List Nat) : Int :=
  let m := fromLE bs
  if 9223372036854775808 ≤ m then (m : Int) - 18446744073709551616 else (m : Int)

/- ===== Keyed-archive codec (selector and OBJECT aux payloads) ===== -/

/-- Modelled from the spec: the keyed-archive object codec (bpylist2
archiver and the NSKeyedArchiver binary plist format) is not part of this
repository; per section 3 of the spec it serializes primitive values
(strings, integers, booleans, null) injectively. The model uses a tagged
length-prefixed byte encoding at that level of detail. -/
inductive KAValue where
  | null
  | bool (b : Bool)
  | int (n : Int)
  | str (s : List Nat)
deriving DecidableEq

/-- Modelled from the spec: archiver.archive, serializing one primitive
keyed-archive value to bytes. -/
def archive : KAValue → List Nat
  | KAValue.null => [0]
  | KAValue.bool b => [1, cond b 1 0]
  | KAValue.int n => 2 :: encodeI64 n
  | KAValue.str s => 3 :: (toLE 4 s.length ++ s)

/-- Modelled from the spec: one parsing step of the keyed-archive decoder,
returning the decoded value and the unconsumed bytes. -/
def parseKA (bs : List Nat) : Option (KAValue × List Nat) :=
  match bs with
  | 0 :: rest => some (KAValue.null, rest)
  | 1 :: b :: rest =>
    if b = 1 then some (KAValue.bool true, rest)
    else if b = 0 then some (KAValue.bool false, rest)
    else none
  | 2 :: rest =>
    match readN 8 rest with
    | some (ib, rest2) => some (KAValue.int (decodeI64 ib), rest2)
    | none => none
  | 3 :: rest =>
    match readN 4 rest with
    | some (lb, rest2) =>
      match readN (fromLE lb) rest2 with
      | some (sb, rest3) => some (KAValue.str sb, rest3)
      | none => none
    | none => none
  | _ => none

/-- Modelled from the spec: archiver.unarchive, decoding a whole buffer as
one keyed-archive value; trailing garbage is a decode failure. -/
def unarchive (bs : List Nat) : Option KAValue :=
  match parseKA bs with
  | some (v, []) => some v
  | _ => none

/-- A keyed-archive value the codec can faithfully carry: 64-bit signed
integers and strings whose length fits the 32-bit length prefix. -/
def wfKA : KAValue → Prop
  | KAValue.int n => -(9223372036854775808) ≤ n ∧ n < 9223372036854775808
  | KAValue.str s => s.length < 2147483648
  | _ => True

instance : DecidablePred wfKA := by
  intro v
  cases v <;> simp [wfKA] <;> infer_instance

/- ===== Auxiliary blob codec (MessageAux / message_aux_t_struct) ===== -/

/-- One auxiliary entry: MessageAux.append_int produces an INT64 entry and
MessageAux.append_obj an OBJECT entry (spec section 3: tags 4 and 2). -/
inductive AuxEntry where
  | int64 (n : Int)
  | obj (v : KAValue)
deriving DecidableEq

/-- Well-formed auxiliary entry: the embedded values are encodable. -/
def wfEntry : AuxEntry → Prop
  | AuxEntry.int64 n => -(9223372036854775808) ≤ n ∧ n < 9223372036854775808
  | AuxEntry.obj v => wfKA v

instance : DecidablePred wfEntry := by
  intro e
  cases e <;> simp [wfEntry] <;> infer_instance

/-- Modelled from the spec: byte encoding of one auxiliary entry (section
3): a 32-bit type tag, then for INT64 (tag 4) a 64-bit signed value, for
OBJECT (tag 2) a 32-bit length prefix and the archived object. -/
def encodeAuxEntry : AuxEntry → List Nat
  | AuxEntry.int64 n => toLE 4 4 ++ encodeI64 n
  | AuxEntry.obj v => toLE 4 2 ++ (toLE 4 (archive v).length ++ archive v)

/-- Byte encoding of an auxiliary entry list, entries in order. -/
def encodeAuxEntries : List AuxEntry → List Nat
  | [] => []
  | e :: es => encodeAuxEntry e ++ encodeAuxEntries es

/-- Modelled from the spec: parsing one auxiliary entry; an unknown tag
fails loudly (section 3). -/
def parseAuxEntry (bs : List Nat) : Option (AuxEntry × List Nat) :=
  match readN 4 bs with
  | none => none
  | some (tb, r1) =>
    if fromLE tb = 4 then
      match readN 8 r1 with
      | some (ib, r2) => some (AuxEntry.int64 (decodeI64 ib), r2)
      | none => none
    else if fromLE tb = 2 then
      match readN 4 r1 with
      | none => none
      | some (lb, r2) =>
        match readN (fromLE lb) r2 with
        | none => none
        | some (ob, r3) =>
          match unarchive ob with
          | some v => some (AuxEntry.obj v, r3)
          | none => none
    else none

/-- Parse auxiliary entries greedily until the buffer is exhausted; the
fuel argument only bounds recursion and is instantiated with the buffer
length (each entry consumes at least one byte). -/
def parseAuxEntries (fuel : Nat) (bs : List Nat) : Option (List AuxEntry) :=
  if bs.isEmpty then some []
  else
    match fuel with
    | 0 => none
    | f + 1 =>
      match parseAuxEntry bs with
      | some (e, rest) =>
        match parseAuxEntries f rest with
        | some es => some (e :: es)
        | none => none
      | none => none

/-- The auxiliary blob magic constant (spec section 3). -/
def auxMagic : Nat := 0x1f0

/-- Modelled from the spec: bytes of the full auxiliary blob as built by
bytes on a MessageAux: 64-bit magic, 64-bit byte length of the entries,
then the entries. -/
def encodeAux (es : List AuxEntry) : List Nat :=
  toLE 8 auxMagic ++ toLE 8 (encodeAuxEntries es).length ++ encodeAuxEntries es

/-- Modelled from the spec: message_aux_t_struct.parse_stream, consuming
magic, length and exactly length bytes of entries from the stream. -/
def parseAux (bs : List Nat) : Option (List AuxEntry × List Nat) :=
  match readN 8 bs with
  | none => none
  | some (mb, r1) =>
    if fromLE mb = auxMagic then
      match readN 8 r1 with
      | none => none
      | some (lb, r2) =>
        match readN (fromLE lb) r2 with
        | none => none
        | some (body, r3) =>
          match parseAuxEntries body.length body with
          | some es => some (es, r3)
          | none => none
    else none

/- ===== Payload codec (send_message build, recv_message parse) ===== -/

/-- INSTRUMENTS_MESSAGE_TYPE from the source. -/
def instrumentsMessageType : Nat := 2

/-- EXPECTS_REPLY_MASK from the source. -/
def expectsReplyMask : Nat := 0x1000

/-- Errors recv_message can raise while decoding a payload. The
compression error is the NotImplementedError raised on a non-zero
compression field; it is distinct from stream truncation and from a
malformed auxiliary blob. -/
inductive RecvError where
  | truncated
  | compressionUnsupported
  | badAux
deriving DecidableEq

instance {ε α : Type} [DecidableEq ε] [DecidableEq α] : DecidableEq (Except ε α) := by
  intro a b
  cases a <;> cases b <;>
    first
    | (apply isFalse; intro h; exact Except.noConfusion h)
    | (rename_i x y
       exact if h : x = y then isTrue (by rw [h]) else isFalse (by intro hc; cases hc; exact h rfl))

/-- Payload bytes as assembled by send_message lines 347 to 364: the
16-byte payload header (flags, auxiliaryLength, totalLength, modelled from
the spec as u32, u32, u64 little-endian), then the auxiliary blob, then
the archived selector. flags is INSTRUMENTS_MESSAGE_TYPE, with
EXPECTS_REPLY_MASK or-ed in when expects_reply is set. -/
def encodePayload (selector : Option (List Nat)) (args : Option (List AuxEntry))
    (expectsReply : Bool) : List Nat :=
  let aux := match args with
    | some es => encodeAux es
    | none => []
  let sel := match selector with
    | some s => archive (KAValue.str s)
    | none => []
  let flags := instrumentsMessageType ||| (if expectsReply then expectsReplyMask else 0)
  toLE 4 flags ++ toLE 4 aux.length ++ toLE 8 (aux.length + sel.length) ++ aux ++ sel

/-- The part of recv_message that runs after the payload header has been
parsed (lines 371 to 390): reject a non-zero compression field computed as
(flags and 0xFF000) shifted right by 12, parse the auxiliary blob when
auxiliaryLength is non-zero, then read totalLength - auxiliaryLength bytes
and unarchive them when non-empty. A failed unarchive of non-empty data
yields a null return, mirroring the InvalidFileException branch that logs
a warning and leaves ret as None. -/
def decodeBody (flags auxiliaryLength totalLength : Nat) (r3 : List Nat) :
    Except RecvError (Option KAValue × Option (List AuxEntry)) :=
  let compression := (flags &&& 0xFF000) >>> 12
  if compression ≠ 0 then Except.error RecvError.compressionUnsupported
  else
    match
      (if auxiliaryLength ≠ 0 then
        match parseAux r3 with
        | some (es, r4) => Except.ok (some es, r4)
        | none => Except.error RecvError.badAux
      else Except.ok (none, r3) :
        Except RecvError (Option (List AuxEntry) × List Nat)) with
    | Except.error e => Except.error e
    | Except.ok (aux, r4) =>
      let objSize := totalLength - auxiliaryLength
      let data := r4.take objSize
      let ret := if data.isEmpty then none else unarchive data
      Except.ok (ret, aux)

/-- Payload decoding as recv_message performs it (lines 369 to 390): parse
the 16-byte payload header from the reassembled stream, then decode the
remainder. -/
def decodePayload (bs : List Nat) :
    Except RecvError (Option KAValue × Option (List AuxEntry)) :=
  match readN 4 bs with
  | none => Except.error RecvError.truncated
  | some (fb, r1) =>
    match readN 4 r1 with
    | none => Except.error RecvError.truncated
    | some (ab, r2) =>
      match readN 8 r2 with
      | none => Except.error RecvError.truncated
      | some (tb, r3) => decodeBody (fromLE fb) (fromLE ab) (fromLE tb) r3

/-- Well-formed selector argument: absent, or a string whose length fits
the keyed-archive length prefix. -/
def wfSel : Option (List Nat) → Prop
  | none => True
  | some s => s.length < 2147483648

instance : DecidablePred wfSel := by
  intro s
  cases s <;> simp [wfSel] <;> infer_instance

/-- Well-formed auxiliary argument: absent, or entries that are each
encodable with a total blob size fitting the u32 auxiliaryLength field. -/
def wfArgs : Option (List AuxEntry) → Prop
  | none => True
  | some es => (∀ e ∈ es, wfEntry e) ∧ (encodeAuxEntries es).length + 16 < 4294967296

instance : DecidablePred wfArgs := by
  intro a
  cases a <;> simp [wfArgs] <;> infer_instance

/- ===== Fragment reassembly (_recv_packet_fragments) ===== -/

/-- One inbound fragment: the parsed dtx_message_header fields the
reassembly loop consults, plus the body bytes that follow the header on
the wire (the length header field equals the body byte count, and
recvall(length) returns exactly these bytes). -/
structure Fragment where
  fragmentId : Nat
  fragmentCount : Nat
  identifier : Nat
  conversationIndex : Nat
  channelCode : Int
  body : List Nat
deriving DecidableEq

/-- The loop body of _recv_packet_fragments (lines 399 to 413): for each
fragment, a peer-initiated header (conversationIndex zero) whose
identifier exceeds cur_message bumps cur_message; a first fragment of a
multi-fragment message contributes no payload bytes; other fragments
append their body; the loop ends when fragmentId reaches
fragmentCount - 1. Running out of fragments models a blocked or failed
transport read and yields none. -/
def recvFragmentsLoop (cur : Nat) (acc : List Nat) :
    List Fragment → Option (Nat × List Nat)
  | [] => none
  | f :: rest =>
    let cur1 := if f.conversationIndex = 0 ∧ cur < f.identifier then f.identifier else cur
    if 1 < f.fragmentCount ∧ f.fragmentId = 0 then
      recvFragmentsLoop cur1 acc rest
    else
      let acc1 := acc ++ f.body
      if f.fragmentId + 1 = f.fragmentCount then some (cur1, acc1)
      else recvFragmentsLoop cur1 acc1 rest

/-- _recv_packet_fragments: reassemble one logical message from the
inbound fragment stream, starting from the session counter cur and an
empty payload buffer. -/
def recvPacketFragments (cur : Nat) (frags : List Fragment) : Option (Nat × List Nat) :=
  recvFragmentsLoop cur [] frags

/-- Shape of a well-formed fragment suffix: fragment ids count up from i
and every fragment carries the same total count n. -/
def fragSeqB (i n : Nat) : List Fragment → Bool
  | [] => true
  | f :: rest => f.fragmentId = i && f.fragmentCount = n && fragSeqB (i + 1) n rest

/- ===== Channel proxy name sanitization ===== -/

/-- Replace one character as str.replace does inside _sanitize_name. -/
def subColon (c : Char) : Char := if c = '_' then ':' else c

/-- Channel._sanitize_name on the character list of a python attribute
name: a leading underscore is kept and every underscore of the remainder
becomes a colon; without a leading underscore every underscore becomes a
colon. -/
def sanitizeChars : List Char → List Char
  | [] => []
  | c :: cs => if c = '_' then '_' :: cs.map subColon else (c :: cs).map subColon

/-- Channel._sanitize_name on strings. -/
def sanitizeName (s : String) : String := String.mk (sanitizeChars s.data)

/- ===== Session state machine ===== -/

/-- Decoded plist-level values exchanged at the session layer: the
selector strings, the capability dictionaries (string keys, integer
versions) and integers the modelled claims touch. -/
inductive PValue where
  | null
  | int (n : Int)
  | str (s : String)
  | dict (d : List (String × Int))
deriving DecidableEq

/-- One auxiliary argument at the session layer: append_int yields an
INT64 entry, append_obj an OBJECT entry. -/
inductive AuxArg where
  | int64 (n : Int)
  | obj (v : PValue)
deriving DecidableEq

/-- The decoded value carried by an auxiliary entry, as aux[i].value reads
it. -/
def auxValue : AuxArg → PValue
  | AuxArg.int64 n => PValue.int n
  | AuxArg.obj v => v

/-- One message written to the transport by send_message, recorded with
the header fields the claims observe. -/
structure SentMessage where
  identifier : Nat
  channel : Int
  selector : Option String
  args : Option (List AuxArg)
  expectsReply : Bool
deriving DecidableEq

/-- The mutable session state of DvtSecureSocketProxyService: the message
identifier counter, the channel code counter, the supported-capability
dictionary, the channel table, and the trace of messages written to the
transport. -/
structure SessionState where
  cur_message : Nat
  last_channel_code : Nat
  supported_identifiers : List (String × Int)
  channels : List (String × Nat)
  sent : List SentMessage
deriving DecidableEq

/-- A freshly constructed session (lines 173 to 176): zero counters, empty
capability dictionary, empty channel table, nothing sent. -/
def freshSession : SessionState :=
  { cur_message := 0, last_channel_code := 0, supported_identifiers := [],
    channels := [], sent := [] }

/-- send_message (lines 344 to 365): pre-increment cur_message and write
one single-fragment message whose header identifier is the incremented
counter. -/
def sendMessage (st : SessionState) (channel : Int) (selector : Option String)
    (args : Option (List AuxArg)) (expectsReply : Bool) : SessionState :=
  { st with
    cur_message := st.cur_message + 1,
    sent := st.sent ++ [{ identifier := st.cur_message + 1, channel := channel,
                          selector := selector, args := args,
                          expectsReply := expectsReply }] }

/-- The arguments of one send_message call. -/
structure SendCall where
  channel : Int
  selector : Option String
  args : Option (List AuxArg)
  expectsReply : Bool

/-- A sequence of send_message calls with no intervening receives. -/
def sendMany (st : SessionState) : List SendCall → SessionState
  | [] => st
  | c :: cs => sendMany (sendMessage st c.channel c.selector c.args c.expectsReply) cs

/-- The counter update _recv_packet_fragments performs per inbound header
(lines 404 to 406): a peer-initiated header (conversationIndex zero) with
an identifier above cur_message raises cur_message to that identifier. -/
def recvHeaderUpdate (st : SessionState) (f : Fragment) : SessionState :=
  if f.conversationIndex = 0 ∧ st.cur_message < f.identifier then
    { st with cur_message := f.identifier }
  else st

/-- One decoded inbound logical message, together with the header fields
of its fragments that affect the session counter. -/
structure InboundMsg where
  conversationIndex : Nat
  identifier : Nat
  ret : Option PValue
  aux : Option (List AuxArg)
deriving DecidableEq

/-- The session counter update performed while receiving one inbound
logical message. -/
def recvUpdate (st : SessionState) (m : InboundMsg) : SessionState :=
  if m.conversationIndex = 0 ∧ st.cur_message < m.identifier then
    { st with cur_message := m.identifier }
  else st

/-- The handshake selector string. -/
def notifySel : String := "_notifyOfPublishedCapabilities:"

/-- The channel request selector string. -/
def requestChannelSel : String := "_requestChannelWithCode:identifier:"

/-- The capability map perform_handshake advertises (line 320). -/
def capMap : PValue :=
  PValue.dict [("com.apple.private.DTXBlockCompression", 0),
               ("com.apple.private.DTXConnection", 1)]

/-- Handshake failure: the ValueError raised on an invalid answer. -/
inductive HsError where
  | invalidAnswer
deriving DecidableEq

/-- perform_handshake (lines 318 to 327): send the capability notice on
channel 0 without expecting a reply, receive one message, require the
returned selector to equal the notice selector and the first auxiliary
value to be a non-empty dictionary (modelled from the spec: the emptiness
test on the first decoded entry reads it as an ordered map), then store
that dictionary as supported_identifiers. The returned pair carries the
session state as mutated up to the point of success or failure. -/
def performHandshake (st : SessionState) (inb : InboundMsg) :
    SessionState × Option HsError :=
  let st1 := sendMessage st 0 (some notifySel) (some [AuxArg.obj capMap]) false
  let st2 := recvUpdate st1 inb
  if inb.ret ≠ some (PValue.str notifySel) then (st2, some HsError.invalidAnswer)
  else
    match inb.aux with
    | some (e :: _) =>
      match auxValue e with
      | PValue.dict d =>
        if d.isEmpty then (st2, some HsError.invalidAnswer)
        else ({ st2 with supported_identifiers := d }, none)
      | _ => (st2, some HsError.invalidAnswer)
    | _ => (st2, some HsError.invalidAnswer)

/-- The capability key set: membership of an identifier in the
supported_identifiers dictionary tests its keys, as the python in operator
does on a dict. -/
def supportedKeys (st : SessionState) : List String :=
  st.supported_identifiers.map Prod.fst

/-- Lookup in the channel table. -/
def chanLookup : List (String × Nat) → String → Option Nat
  | [], _ => none
  | (k, v) :: rest, s => if k = s then some v else chanLookup rest s

/-- make_channel failure: the failed assertions of lines 330 and 339. -/
inductive MCError where
  | notSupported
  | replyNotNull
deriving DecidableEq

/-- make_channel (lines 329 to 342): assert the identifier is a supported
capability key; return the cached channel without touching the transport
when the table already holds it; otherwise allocate the next channel code,
send the channel request on channel 0 with an INT64 code and an OBJECT
identifier expecting a reply, require a null return, cache and return the
new code. -/
def makeChannel (st : SessionState) (identifier : String) (inb : InboundMsg) :
    Except MCError (SessionState × Nat) :=
  if identifier ∈ supportedKeys st then
    match chanLookup st.channels identifier with
    | some code => Except.ok (st, code)
    | none =>
      let code := st.last_channel_code + 1
      let st1 := { st with last_channel_code := code }
      let st2 := sendMessage st1 0 (some requestChannelSel)
        (some [AuxArg.int64 (Int.ofNat code), AuxArg.obj (PValue.str identifier)]) true
      let st3 := recvUpdate st2 inb
      match inb.ret with
      | none => Except.ok ({ st3 with channels := st3.channels ++ [(identifier, code)] }, code)
      | some _ => Except.error MCError.replyNotNull
  else Except.error MCError.notSupported

/-- Channel.__getattr__ composed with one call: invoking an attribute name
on a channel proxy sends the sanitized selector through the session. -/
def channelCall (st : SessionState) (channel : Int) (item : String)
    (args : Option (List AuxArg)) (expectsReply : Bool) : SessionState :=
  sendMessage st channel (some (sanitizeName item)) args expectsReply

/-- The startMonitoring send of network_monitor (line 285): the proxy call
passes expects_reply as false explicitly. -/
def networkMonitorStart (st : SessionState) (channel : Int) : SessionState :=
  channelCall st channel "startMonitoring" none false

/-- The stopMonitoring send of the network_monitor cleanup path (line
307): the proxy call passes no arguments, so the send_message defaults
args as none and expects_reply as true. -/
def networkMonitorStop (st : SessionState) (channel : Int) : SessionState :=
  channelCall st channel "stopMonitoring" none true

/- ===== Helper lemmas: byte-level codec ===== -/

theorem toLE_length (w n : Nat) : (toLE w n).length = w := by
  induction w generalizing n with
  | zero => rfl
  | succ w ih => simp [toLE, ih]

theorem fromLE_toLE (w n : Nat) : fromLE (toLE w n) = n % 256 ^ w := by
  induction w generalizing n with
  | zero => simp [toLE, fromLE, Nat.mod_one]
  | succ w ih =>
    have h : 256 ^ (w + 1) = 256 * 256 ^ w := by ring
    simp only [toLE, fromLE, ih, h, Nat.mod_mul]

theorem readN_exact (k : Nat) (xs rest : List Nat) (h : xs.length = k) :
    readN k (xs ++ rest) = some (xs, rest) := by
  subst h
  simp only [readN, List.length_append, List.take_left, List.drop_left]
  rw [if_pos (Nat.le_add_right _ _)]

theorem encodeI64_length (n : Int) : (encodeI64 n).length = 8 := by
  simp [encodeI64, toLE_length]

theorem decodeI64_encodeI64 (n : Int)
    (h1 : -(9223372036854775808) ≤ n) (h2 : n < 9223372036854775808) :
    decodeI64 (encodeI64 n) = n := by
  have hmod : (0 : Int) ≤ n % 18446744073709551616 := by omega
  have hlt : n % 18446744073709551616 < 18446744073709551616 := by omega
  have hcast : ((n % 18446744073709551616).toNat : Int) = n % 18446744073709551616 :=
    Int.toNat_of_nonneg hmod
  have hn : (n % 18446744073709551616).toNat % 256 ^ 8 = (n % 18446744073709551616).toNat := by
    apply Nat.mod_eq_of_lt
    have : (256 : Nat) ^ 8 = 18446744073709551616 := by norm_num
    omega
  simp only [decodeI64, encodeI64, fromLE_toLE, hn]
  split <;> omega

theorem parseKA_archive (v : KAValue) (rest : List Nat) (h : wfKA v) :
    parseKA (archive v ++ rest) = some (v, rest) := by
  cases v with
  | null => rfl
  | bool b => cases b <;> rfl
  | int n =>
    simp only [archive, List.cons_append, parseKA]
    rw [readN_exact 8 (encodeI64 n) rest (encodeI64_length n)]
    simp only [wfKA] at h
    simp [decodeI64_encodeI64 n h.1 h.2]
  | str s =>
    simp only [archive, List.cons_append, List.append_assoc, parseKA]
    rw [readN_exact 4 (toLE 4 s.length) (s ++ rest) (toLE_length 4 _)]
    have hlen : fromLE (toLE 4 s.length) = s.length := by
      rw [fromLE_toLE]
      apply Nat.mod_eq_of_lt
      simp only [wfKA] at h
      have : (256 : Nat) ^ 4 = 4294967296 := by norm_num
      omega
    simp [hlen, readN_exact s.length s rest rfl]

theorem unarchive_archive (v : KAValue) (h : wfKA v) :
    unarchive (archive v) = some v := by
  have := parseKA_archive v [] h
  rw [List.append_nil] at this
  simp [unarchive, this]

/- ===== Helper lemmas: auxiliary blob codec ===== -/

theorem archive_length_lt (v : KAValue) (h : wfKA v) : (archive v).length < 4294967296 := by
  cases v with
  | null => simp [archive]
  | bool b => simp [archive]
  | int n => simp [archive, encodeI64_length]
  | str s =>
    simp only [archive, List.length_cons, List.length_append, toLE_length]
    simp only [wfKA] at h
    omega

theorem parseAuxEntry_encode (e : AuxEntry) (rest : List Nat) (h : wfEntry e) :
    parseAuxEntry (encodeAuxEntry e ++ rest) = some (e, rest) := by
  cases e with
  | int64 n =>
    simp only [encodeAuxEntry, List.append_assoc, parseAuxEntry]
    rw [readN_exact 4 (toLE 4 4) (encodeI64 n ++ rest) (toLE_length 4 _)]
    have h4 : fromLE (toLE 4 4) = 4 := by rw [fromLE_toLE]; norm_num
    simp only [wfEntry] at h
    simp [h4, readN_exact 8 (encodeI64 n) rest (encodeI64_length n),
      decodeI64_encodeI64 n h.1 h.2]
  | obj v =>
    simp only [encodeAuxEntry, List.append_assoc, parseAuxEntry]
    rw [readN_exact 4 (toLE 4 2) _ (toLE_length 4 _)]
    have h2 : fromLE (toLE 4 2) = 2 := by rw [fromLE_toLE]; norm_num
    have hlen : fromLE (toLE 4 (archive v).length) = (archive v).length := by
      rw [fromLE_toLE]
      apply Nat.mod_eq_of_lt
      have := archive_length_lt v h
      have : (256 : Nat) ^ 4 = 4294967296 := by norm_num
      omega
    simp [h2, readN_exact 4 (toLE 4 (archive v).length) _ (toLE_length 4 _),
      hlen, readN_exact (archive v).length (archive v) rest rfl,
      unarchive_archive v h]

theorem encodeAuxEntry_ne_nil (e : AuxEntry) : encodeAuxEntry e ≠ [] := by
  cases e <;> simp [encodeAuxEntry, toLE]

theorem length_le_encodeAuxEntries (es : List AuxEntry) :
    es.length ≤ (encodeAuxEntries es).length := by
  induction es with
  | nil => simp [encodeAuxEntries]
  | cons e es ih =>
    simp only [encodeAuxEntries, List.length_append, List.length_cons]
    have h1 : 1 ≤ (encodeAuxEntry e).length := by
      cases e <;> simp [encodeAuxEntry, toLE_length, encodeI64_length] <;> omega
    omega

theorem parseAuxEntries_encode (es : List AuxEntry) (fuel : Nat)
    (h : ∀ e ∈ es, wfEntry e) (hfuel : es.length ≤ fuel) :
    parseAuxEntries fuel (encodeAuxEntries es) = some es := by
  induction es generalizing fuel with
  | nil =>
    rw [show encodeAuxEntries [] = [] from rfl, parseAuxEntries.eq_def]
    simp
  | cons e es ih =>
    cases fuel with
    | zero => simp at hfuel
    | succ f =>
      have hne : (encodeAuxEntry e ++ encodeAuxEntries es).isEmpty = false := by
        cases hh : encodeAuxEntry e with
        | nil => exact absurd hh (encodeAuxEntry_ne_nil e)
        | cons a t => simp [hh]
      rw [show encodeAuxEntries (e :: es) = encodeAuxEntry e ++ encodeAuxEntries es from rfl]
      rw [parseAuxEntries, if_neg (by simp [hne])]
      rw [parseAuxEntry_encode e _ (h e (List.mem_cons_self e es))]
      have hf : es.length ≤ f := by simp only [List.length_cons] at hfuel; omega
      simp [ih f (fun x hx => h x (List.mem_cons_of_mem e hx)) hf]

theorem parseAux_encodeAux (es : List AuxEntry) (rest : List Nat)
    (h : ∀ e ∈ es, wfEntry e) (hlen : (encodeAuxEntries es).length < 18446744073709551616) :
    parseAux (encodeAux es ++ rest) = some (es, rest) := by
  simp only [encodeAux, List.append_assoc, parseAux]
  rw [readN_exact 8 (toLE 8 auxMagic) _ (toLE_length 8 _)]
  have hm : fromLE (toLE 8 auxMagic) = auxMagic := by
    rw [fromLE_toLE]; norm_num [auxMagic]
  have hl : fromLE (toLE 8 (encodeAuxEntries es).length) = (encodeAuxEntries es).length := by
    rw [fromLE_toLE]
    apply Nat.mod_eq_of_lt
    have : (256 : Nat) ^ 8 = 18446744073709551616 := by norm_num
    omega
  simp [hm, readN_exact 8 (toLE 8 (encodeAuxEntries es).length) _ (toLE_length 8 _),
    hl, readN_exact (encodeAuxEntries es).length (encodeAuxEntries es) rest rfl,
    parseAuxEntries_encode es _ h (length_le_encodeAuxEntries es)]

/- ===== Helper lemmas: payload codec ===== -/

theorem decodePayload_header (flags auxLen total : Nat) (body : List Nat)
    (h1 : flags < 4294967296) (h2 : auxLen < 4294967296)
    (h3 : total < 18446744073709551616) :
    decodePayload (toLE 4 flags ++ toLE 4 auxLen ++ toLE 8 total ++ body) =
      decodeBody flags auxLen total body := by
  have e1 : flags % 256 ^ 4 = flags := by
    apply Nat.mod_eq_of_lt
    have : (256 : Nat) ^ 4 = 4294967296 := by norm_num
    omega
  have e2 : auxLen % 256 ^ 4 = auxLen := by
    apply Nat.mod_eq_of_lt
    have : (256 : Nat) ^ 4 = 4294967296 := by norm_num
    omega
  have e3 : total % 256 ^ 8 = total := by
    apply Nat.mod_eq_of_lt
    have : (256 : Nat) ^ 8 = 18446744073709551616 := by norm_num
    omega
  simp only [decodePayload, List.append_assoc,
    readN_exact 4 (toLE 4 flags) _ (toLE_length 4 _),
    readN_exact 4 (toLE 4 auxLen) _ (toLE_length 4 _),
    readN_exact 8 (toLE 8 total) _ (toLE_length 8 _),
    fromLE_toLE, e1, e2, e3]

theorem encodeAux_length (es : List AuxEntry) :
    (encodeAux es).length = 16 + (encodeAuxEntries es).length := by
  simp [encodeAux, toLE_length]
  omega

theorem archive_str_length (s : List Nat) :
    (archive (KAValue.str s)).length = 5 + s.length := by
  simp [archive, toLE_length]
  omega

theorem archive_str_ne_nil (s : List Nat) : archive (KAValue.str s) ≠ [] := by
  simp [archive]

theorem flags_no_reply :
    (instrumentsMessageType ||| (if (false : Bool) then expectsReplyMask else 0)) = 2 := by
  decide

theorem comp_of_two : ((2 : Nat) &&& 0xFF000) >>> 12 = 0 := by decide

theorem isEmpty_archive_str (s : List Nat) :
    (archive (KAValue.str s)).isEmpty = false := by
  cases hh : archive (KAValue.str s) with
  | nil => exact absurd hh (archive_str_ne_nil s)
  | cons a t => simp

/-- Claim C2, amended to expects_reply false: decoding the payload bytes
that send_message encodes recovers the selector and a structurally equal
auxiliary list. With expects_reply true the encoded flag bit 0x1000 falls
inside the compression mask 0xFF000 and the decoder rejects the payload,
see the counterexample. -/
theorem c2_payload_roundtrip_no_reply (sel : Option (List Nat))
    (args : Option (List AuxEntry)) (hs : wfSel sel) (ha : wfArgs args) :
    decodePayload (encodePayload sel args false) =
      Except.ok (sel.map KAValue.str, args) := by
  cases args with
  | none =>
    cases sel with
    | none => rfl
    | some s =>
      have hwf : wfKA (KAValue.str s) := hs
      have henc : encodePayload (some s) none false =
          toLE 4 2 ++ toLE 4 0 ++ toLE 8 (archive (KAValue.str s)).length ++
            archive (KAValue.str s) := by
        simp [encodePayload, instrumentsMessageType]
      rw [henc, decodePayload_header 2 0 _ _ (by norm_num) (by norm_num)
        (by rw [archive_str_length]; simp only [wfSel] at hs; omega)]
      simp [decodeBody, comp_of_two, List.take_length, isEmpty_archive_str,
        unarchive_archive _ hwf]
  | some es =>
    have hL : (encodeAuxEntries es).length + 16 < 4294967296 := ha.2
    have hAlen : (encodeAux es).length = 16 + (encodeAuxEntries es).length :=
      encodeAux_length es
    have hAne : (encodeAux es).length ≠ 0 := by omega
    have hparse : parseAux (encodeAux es ++ []) = some (es, []) := by
      exact parseAux_encodeAux es [] ha.1 (by omega)
    cases sel with
    | none =>
      have henc : encodePayload none (some es) false =
          toLE 4 2 ++ toLE 4 (encodeAux es).length ++
            toLE 8 (encodeAux es).length ++ encodeAux es := by
        simp [encodePayload, instrumentsMessageType]
      rw [henc, decodePayload_header 2 _ _ _ (by norm_num) (by omega) (by omega)]
      rw [List.append_nil] at hparse
      simp [decodeBody, comp_of_two, hAne, hparse, Nat.sub_self]
    | some s =>
      have hwf : wfKA (KAValue.str s) := hs
      have hSlen : (archive (KAValue.str s)).length = 5 + s.length :=
        archive_str_length s
      have hslt : s.length < 2147483648 := hs
      have hparse2 : parseAux (encodeAux es ++ archive (KAValue.str s)) =
          some (es, archive (KAValue.str s)) :=
        parseAux_encodeAux es _ ha.1 (by omega)
      have henc : encodePayload (some s) (some es) false =
          toLE 4 2 ++ toLE 4 (encodeAux es).length ++
            toLE 8 ((encodeAux es).length + (archive (KAValue.str s)).length) ++
            (encodeAux es ++ archive (KAValue.str s)) := by
        simp [encodePayload, instrumentsMessageType]
      rw [henc, decodePayload_header 2 _ _ _ (by norm_num) (by omega) (by omega)]
      simp [decodeBody, comp_of_two, hAne, hparse2, Nat.add_sub_cancel_left,
        List.take_length, isEmpty_archive_str, unarchive_archive _ hwf]

/-- Witness for claim C2: the amended round trip evaluated on the selector
bytes of one character, one INT64 entry and one OBJECT string entry. -/
theorem c2_payload_roundtrip_no_reply_witness :
    wfSel (some [97]) ∧
    wfArgs (some [AuxEntry.int64 80, AuxEntry.obj (KAValue.str [47, 118])]) ∧
    decodePayload (encodePayload (some [97])
        (some [AuxEntry.int64 80, AuxEntry.obj (KAValue.str [47, 118])]) false) =
      Except.ok (some (KAValue.str [97]),
        some [AuxEntry.int64 80, AuxEntry.obj (KAValue.str [47, 118])]) :=
  ⟨by decide, by decide,
    c2_payload_roundtrip_no_reply (some [97])
      (some [AuxEntry.int64 80, AuxEntry.obj (KAValue.str [47, 118])])
      (by decide) (by decide)⟩

/-- Counterexample for claim C2 as stated: with expects_reply true, the
payload send_message encodes is rejected by recv_message as compressed
(the reply flag 0x1000 lies inside the compression mask 0xFF000), so the
decode does not return the encoded selector and auxiliary list. -/
theorem c2_roundtrip_counterexample :
    decodePayload (encodePayload (some [97]) (some [AuxEntry.int64 80]) true) =
      Except.error RecvError.compressionUnsupported ∧
    decodePayload (encodePayload (some [97]) (some [AuxEntry.int64 80]) true) ≠
      Except.ok (some (KAValue.str [97]), some [AuxEntry.int64 80]) := by
  constructor
  · rfl
  · decide

theorem and_mask_shift_ne_zero (flags : Nat) (h : flags &&& 0xFF000 ≠ 0) :
    (flags &&& 0xFF000) >>> 12 ≠ 0 := by
  have hz : flags &&& 0xFF000 &&& 4095 = 0 := by
    rw [Nat.and_assoc, show (0xFF000 : Nat) &&& 4095 = 0 by decide, Nat.and_zero]
  have hmod : (flags &&& 0xFF000) % 4096 = 0 := by
    have := Nat.and_pow_two_sub_one_eq_mod (flags &&& 0xFF000) 12
    norm_num at this
    omega
  rw [Nat.shiftRight_eq_div_pow]
  norm_num
  omega

/-- Claim C6: any inbound payload whose header flags have a bit of
0x0FF000 set is rejected by recv_message with the distinct
compression-unsupported error, before the auxiliary blob or the return
value is decoded, whatever the rest of the payload holds; the error result
carries no decoded component. The bounds state that the header
fields fit their u32, u32 and u64 wire encodings. -/
theorem c6_compression_rejected (flags auxLen total : Nat) (body : List Nat)
    (h : flags &&& 0xFF000 ≠ 0) (h1 : flags < 4294967296)
    (h2 : auxLen < 4294967296) (h3 : total < 18446744073709551616) :
    decodePayload (toLE 4 flags ++ toLE 4 auxLen ++ toLE 8 total ++ body) =
      Except.error RecvError.compressionUnsupported := by
  rw [decodePayload_header flags auxLen total body h1 h2 h3]
  simp only [decodeBody]
  rw [if_pos (and_mask_shift_ne_zero flags h)]

/-- Witness for claim C6: a payload header with compression code 2 and a
non-trivial body is rejected unread. -/
theorem c6_compression_rejected_witness :
    decodePayload (toLE 4 0x2002 ++ toLE 4 0 ++ toLE 8 1 ++ [0]) =
      Except.error RecvError.compressionUnsupported :=
  c6_compression_rejected 0x2002 0 1 [0] (by decide) (by decide) (by decide) (by decide)

/- ===== Helper lemmas: fragment reassembly ===== -/

theorem recvLoop_seq (fs : List Fragment) (i n cur : Nat) (acc : List Nat)
    (hseq : fragSeqB i n fs = true) (hi : 1 ≤ i) (hlen : fs.length + i = n)
    (hne : fs ≠ []) :
    ∃ c, recvFragmentsLoop cur acc fs =
      some (c, acc ++ (fs.map Fragment.body).flatten) := by
  induction fs generalizing i cur acc with
  | nil => exact absurd rfl hne
  | cons f rest ih =>
    simp only [fragSeqB, Bool.and_eq_true, decide_eq_true_eq] at hseq
    obtain ⟨⟨hid, hcnt⟩, hrest⟩ := hseq
    simp only [recvFragmentsLoop]
    rw [if_neg (by omega : ¬(1 < f.fragmentCount ∧ f.fragmentId = 0))]
    cases rest with
    | nil =>
      rw [if_pos (by simp only [List.length_cons, List.length_nil] at hlen; omega :
        f.fragmentId + 1 = f.fragmentCount)]
      exact ⟨if f.conversationIndex = 0 ∧ cur < f.identifier then f.identifier else cur,
        by simp⟩
    | cons g rest2 =>
      rw [if_neg (by simp only [List.length_cons] at hlen; omega :
        ¬f.fragmentId + 1 = f.fragmentCount)]
      obtain ⟨c, hc⟩ := ih (i + 1) _ (acc ++ f.body) hrest (by omega)
        (by simp only [List.length_cons] at hlen ⊢; omega) (by simp)
      exact ⟨c, by rw [hc]; simp⟩

theorem recvPacket_shape (f0 : Fragment) (rest : List Fragment) (n cur : Nat)
    (hn : (f0 :: rest).length = n) (hseq : fragSeqB 0 n (f0 :: rest) = true)
    (hbody0 : 1 < n → f0.body = []) :
    ∃ c, recvPacketFragments cur (f0 :: rest) =
      some (c, if 1 < n then (rest.map Fragment.body).flatten else f0.body) := by
  simp only [fragSeqB, Bool.and_eq_true, decide_eq_true_eq] at hseq
  obtain ⟨⟨hid, hcnt⟩, hrest⟩ := hseq
  by_cases h1 : 1 < n
  · rw [if_pos h1]
    simp only [recvPacketFragments, recvFragmentsLoop]
    rw [if_pos (by omega : 1 < f0.fragmentCount ∧ f0.fragmentId = 0)]
    cases rest with
    | nil => simp only [List.length_cons, List.length_nil] at hn; omega
    | cons g rest2 =>
      obtain ⟨c, hc⟩ := recvLoop_seq (g :: rest2) 1 n _ [] hrest (by omega)
        (by simp only [List.length_cons] at hn ⊢; omega) (by simp)
      exact ⟨c, by rw [hc]; simp⟩
  · rw [if_neg h1]
    have hn1 : n = 1 := by simp only [List.length_cons] at hn; omega
    have hrest0 : rest = [] := by
      cases rest with
      | nil => rfl
      | cons g r2 => simp only [List.length_cons] at hn; omega
    subst hrest0
    simp only [recvPacketFragments, recvFragmentsLoop]
    rw [if_neg (by omega : ¬(1 < f0.fragmentCount ∧ f0.fragmentId = 0))]
    rw [if_pos (by omega : f0.fragmentId + 1 = f0.fragmentCount)]
    exact ⟨if f0.conversationIndex = 0 ∧ cur < f0.identifier then f0.identifier else cur,
      by simp⟩

/-- Claim C4, amended for the single-fragment case: for a logical message
of n fragments with fragment_count n on each, where for n above one the
first fragment carries no payload bytes, the reassembled payload is the
concatenation in arrival order of the bodies of fragments 1 to n - 1; for
n equal to one the payload is the body of fragment 0 itself, not the empty
concatenation the claim as stated would give. -/
theorem c4_fragment_reassembly (f0 : Fragment) (rest : List Fragment) (n cur : Nat)
    (hn : (f0 :: rest).length = n) (hseq : fragSeqB 0 n (f0 :: rest) = true)
    (hbody0 : 1 < n → f0.body = [])
    (hmsg : ∀ f ∈ f0 :: rest, f.identifier = f0.identifier ∧
      f.channelCode = f0.channelCode) :
    ∃ c, recvPacketFragments cur (f0 :: rest) =
      some (c, if 1 < n then (rest.map Fragment.body).flatten else f0.body) :=
  recvPacket_shape f0 rest n cur hn hseq hbody0

/-- Witness for claim C4: a three-fragment message with a header-only
first fragment reassembles to the two body fragments in order. -/
theorem c4_fragment_reassembly_witness :
    ∃ c, recvPacketFragments 0
        [⟨0, 3, 4, 0, 2, []⟩, ⟨1, 3, 4, 0, 2, [10, 11]⟩, ⟨2, 3, 4, 0, 2, [12]⟩] =
      some (c, if 1 < 3 then
        ([(⟨1, 3, 4, 0, 2, [10, 11]⟩ : Fragment), ⟨2, 3, 4, 0, 2, [12]⟩].map
          Fragment.body).flatten
      else []) :=
  c4_fragment_reassembly ⟨0, 3, 4, 0, 2, []⟩
    [⟨1, 3, 4, 0, 2, [10, 11]⟩, ⟨2, 3, 4, 0, 2, [12]⟩] 3 0
    (by decide) (by decide) (fun _ => rfl) (by decide)

/-- Counterexample for claim C4 as stated: a message delivered as one
fragment with fragment_count one and a non-empty body. The claim predicts
the payload is the concatenation of bodies of fragments 1 to n - 1, an
empty concatenation for n equal to one, but the reader returns the body of
fragment 0. -/
theorem c4_counterexample :
    recvPacketFragments 0 [⟨0, 1, 5, 0, 0, [42]⟩] = some (5, [42]) ∧
    ([42] : List Nat) ≠
      (([] : List Fragment).map Fragment.body).flatten := by
  constructor
  · rfl
  · decide

/-- Claim C5, amended: fragments of one message that disagree in
identifier or channel_code are NOT detected by _recv_packet_fragments;
there is no consistency check, and the receive returns the reassembled
concatenation exactly as for matching fragments instead of failing. -/
theorem c5_mismatch_undetected (f0 : Fragment) (rest : List Fragment) (n cur : Nat)
    (hn : (f0 :: rest).length = n) (hseq : fragSeqB 0 n (f0 :: rest) = true)
    (hbody0 : 1 < n → f0.body = [])
    (hmismatch : ∃ f ∈ f0 :: rest, f.identifier ≠ f0.identifier ∨
      f.channelCode ≠ f0.channelCode) :
    ∃ c, recvPacketFragments cur (f0 :: rest) =
      some (c, if 1 < n then (rest.map Fragment.body).flatten else f0.body) :=
  recvPacket_shape f0 rest n cur hn hseq hbody0

/-- Witness for claim C5: two fragments with different identifiers and
channel codes still reassemble successfully. -/
theorem c5_mismatch_undetected_witness :
    ∃ c, recvPacketFragments 0
        [⟨0, 2, 7, 0, 0, []⟩, ⟨1, 2, 9, 0, 1, [1, 2]⟩] =
      some (c, if 1 < 2 then
        ([(⟨1, 2, 9, 0, 1, [1, 2]⟩ : Fragment)].map Fragment.body).flatten
      else []) :=
  c5_mismatch_undetected ⟨0, 2, 7, 0, 0, []⟩ [⟨1, 2, 9, 0, 1, [1, 2]⟩] 2 0
    (by decide) (by decide) (fun _ => rfl)
    ⟨⟨1, 2, 9, 0, 1, [1, 2]⟩, by decide⟩

/-- Counterexample for claim C5 as stated: a two-fragment message whose
fragments differ in both identifier and channel_code is reassembled and
returned, with the counter raised to the larger identifier, rather than
failing with a protocol error. -/
theorem c5_counterexample :
    recvPacketFragments 0 [⟨0, 2, 7, 0, 0, []⟩, ⟨1, 2, 9, 0, 1, [1, 2]⟩] =
      some (9, [1, 2]) ∧
    Fragment.identifier ⟨0, 2, 7, 0, 0, []⟩ ≠
      Fragment.identifier ⟨1, 2, 9, 0, 1, [1, 2]⟩ ∧
    Fragment.channelCode ⟨0, 2, 7, 0, 0, []⟩ ≠
      Fragment.channelCode ⟨1, 2, 9, 0, 1, [1, 2]⟩ := by
  refine ⟨rfl, by decide, by decide⟩

/- ===== Selector sanitization (claim C3) ===== -/

/-- Claim C3: the on-wire selector produced by attribute lookup on a
channel proxy preserves a single leading underscore and turns every other
underscore into a colon, with the three named examples. -/
theorem c3_selector_sanitization :
    sanitizeName "killPid_" = "killPid:" ∧
    sanitizeName "_notifyOfPublishedCapabilities_" = "_notifyOfPublishedCapabilities:" ∧
    sanitizeName "foo_bar_baz_" = "foo:bar:baz:" ∧
    (∀ cs : List Char, sanitizeChars ('_' :: cs) = '_' :: cs.map subColon) ∧
    (∀ c : Char, ∀ cs : List Char, c ≠ '_' →
      sanitizeChars (c :: cs) = (c :: cs).map subColon) := by
  refine ⟨rfl, rfl, rfl, ?_, ?_⟩
  · intro cs
    simp [sanitizeChars]
  · intro c cs h
    simp [sanitizeChars, h]

/-- Witness for claim C3: the general no-leading-underscore clause applied
at a concrete name. -/
theorem c3_selector_sanitization_witness :
    sanitizeChars ['a', '_'] = ['a', ':'] := by
  have h := c3_selector_sanitization.2.2.2.2 'a' ['_'] (by decide)
  simpa [subColon] using h

/- ===== Identifier sequencing (claim C1) ===== -/

theorem sendMany_spec (cs : List SendCall) (st : SessionState) :
    (sendMany st cs).cur_message = st.cur_message + cs.length ∧
    ((sendMany st cs).sent).map SentMessage.identifier =
      st.sent.map SentMessage.identifier ++
        List.range' (st.cur_message + 1) cs.length := by
  induction cs generalizing st with
  | nil => simp [sendMany]
  | cons c cs ih =>
    obtain ⟨h1, h2⟩ := ih (sendMessage st c.channel c.selector c.args c.expectsReply)
    constructor
    · rw [show sendMany st (c :: cs) =
        sendMany (sendMessage st c.channel c.selector c.args c.expectsReply) cs from rfl]
      rw [h1]
      simp [sendMessage]
      omega
    · rw [show sendMany st (c :: cs) =
        sendMany (sendMessage st c.channel c.selector c.args c.expectsReply) cs from rfl]
      rw [h2]
      simp [sendMessage, List.range'_succ]

/-- Claim C1: on a fresh session, any k send_message calls with no
intervening receives put exactly the identifiers 1 to k on the wire, in
order; and after a receive observes a peer-initiated header whose
identifier exceeds the counter, every message a subsequent send_message
writes carries an identifier strictly greater than the observed one. -/
theorem c1_identifier_sequencing :
    (∀ cs : List SendCall,
      ((sendMany freshSession cs).sent).map SentMessage.identifier =
        List.range' 1 cs.length) ∧
    (∀ (st : SessionState) (hdr : Fragment) (cs : List SendCall),
      hdr.conversationIndex = 0 → st.cur_message < hdr.identifier →
      ∀ m ∈ ((sendMany (recvHeaderUpdate st hdr) cs).sent).drop st.sent.length,
        hdr.identifier < m.identifier) := by
  constructor
  · intro cs
    have h := (sendMany_spec cs freshSession).2
    simpa [freshSession] using h
  · intro st hdr cs h0 hlt m hm
    have hupd : recvHeaderUpdate st hdr = { st with cur_message := hdr.identifier } := by
      simp [recvHeaderUpdate, h0, hlt]
    rw [hupd] at hm
    obtain ⟨hcur, hsent⟩ := sendMany_spec cs { st with cur_message := hdr.identifier }
    have hmem : m.identifier ∈
        (((sendMany { st with cur_message := hdr.identifier } cs).sent).map
          SentMessage.identifier).drop st.sent.length := by
      rw [← List.map_drop]
      exact List.mem_map_of_mem SentMessage.identifier hm
    rw [hsent] at hmem
    have hlen : (List.map SentMessage.identifier
        ({ st with cur_message := hdr.identifier } : SessionState).sent).length =
        st.sent.length := by
      simp
    rw [← hlen, List.drop_left] at hmem
    have hproj : ({ st with cur_message := hdr.identifier } : SessionState).cur_message =
        hdr.identifier := rfl
    rw [hproj] at hmem
    have := List.mem_range'_1.mp hmem
    omega

/-- Witness for claim C1: two sends on a fresh session write identifiers
1 and 2; after observing peer identifier 5, the next send writes 6. -/
theorem c1_identifier_sequencing_witness :
    ((sendMany freshSession
        [⟨0, none, none, true⟩, ⟨3, some "runningProcesses", none, true⟩]).sent).map
      SentMessage.identifier = List.range' 1 2 ∧
    (5 : Nat) < ((⟨6, 0, none, none, true⟩ : SentMessage)).identifier := by
  constructor
  · exact c1_identifier_sequencing.1 _
  · exact c1_identifier_sequencing.2 freshSession ⟨0, 1, 5, 0, 0, []⟩
      [⟨0, none, none, true⟩] rfl (by decide)
      (⟨6, 0, none, none, true⟩ : SentMessage) (by decide)

/- ===== Session helper lemmas ===== -/

theorem recvUpdate_fields (st : SessionState) (m : InboundMsg) :
    (recvUpdate st m).sent = st.sent ∧
    (recvUpdate st m).supported_identifiers = st.supported_identifiers ∧
    (recvUpdate st m).channels = st.channels ∧
    (recvUpdate st m).last_channel_code = st.last_channel_code := by
  unfold recvUpdate
  split <;> exact ⟨rfl, rfl, rfl, rfl⟩

theorem chanLookup_append_none (l : List (String × Nat)) (k : String) (v : Nat)
    (h : chanLookup l k = none) : chanLookup (l ++ [(k, v)]) k = some v := by
  induction l with
  | nil => simp [chanLookup]
  | cons p rest ih =>
    obtain ⟨a, b⟩ := p
    rw [List.cons_append]
    simp only [chanLookup] at h ⊢
    by_cases hak : a = k
    · rw [if_pos hak] at h
      exact absurd h (by simp)
    · rw [if_neg hak] at h ⊢
      exact ih h

/- ===== Handshake (claims C7 and C10) ===== -/

/-- Claim C7: perform_handshake sends the capability notice on channel 0
with expects_reply false, then awaits one inbound message; when the
returned selector equals the notice selector and the first auxiliary value
is a non-empty dictionary, its entries become supported_identifiers, whose
key set is the key set of that dictionary; a wrong selector, a missing or
empty auxiliary, or a first value that is not a non-empty dictionary each
raise the invalid-answer error. -/
theorem c7_handshake (st : SessionState) (inb : InboundMsg) :
    (inb.ret = some (PValue.str notifySel) →
      ∀ e rest d, inb.aux = some (e :: rest) → auxValue e = PValue.dict d → d ≠ [] →
        (performHandshake st inb).2 = none ∧
        (performHandshake st inb).1.supported_identifiers = d ∧
        supportedKeys (performHandshake st inb).1 = d.map Prod.fst ∧
        (performHandshake st inb).1.sent = st.sent ++
          [⟨st.cur_message + 1, 0, some notifySel, some [AuxArg.obj capMap], false⟩]) ∧
    (inb.ret ≠ some (PValue.str notifySel) →
      (performHandshake st inb).2 = some HsError.invalidAnswer) ∧
    (∀ e rest d, inb.ret = some (PValue.str notifySel) →
      inb.aux = some (e :: rest) → auxValue e = PValue.dict d → d = [] →
      (performHandshake st inb).2 = some HsError.invalidAnswer) ∧
    (inb.ret = some (PValue.str notifySel) → inb.aux = none →
      (performHandshake st inb).2 = some HsError.invalidAnswer) ∧
    (inb.ret = some (PValue.str notifySel) → inb.aux = some [] →
      (performHandshake st inb).2 = some HsError.invalidAnswer) := by
  refine ⟨?_, ?_, ?_, ?_, ?_⟩
  · intro hret e rest d haux hdict hne
    have hde : d.isEmpty = false := by
      cases d with
      | nil => exact absurd rfl hne
      | cons x xs => rfl
    have hfst : performHandshake st inb =
        ({ recvUpdate (sendMessage st 0 (some notifySel)
            (some [AuxArg.obj capMap]) false) inb with supported_identifiers := d },
          none) := by
      simp only [performHandshake, haux, hdict, hde]
      rw [if_neg (by simp [hret])]
      simp
    rw [hfst]
    refine ⟨rfl, rfl, ?_, ?_⟩
    · simp [supportedKeys]
    · have hsent := (recvUpdate_fields (sendMessage st 0 (some notifySel)
        (some [AuxArg.obj capMap]) false) inb).1
      show (recvUpdate (sendMessage st 0 (some notifySel)
        (some [AuxArg.obj capMap]) false) inb).sent = _
      rw [hsent]
      rfl
  · intro hret
    simp only [performHandshake]
    rw [if_pos (by simp [hret])]
  · intro e rest d hret haux hdict hde
    subst hde
    simp only [performHandshake, haux, hdict]
    rw [if_neg (by simp [hret])]
    rfl
  · intro hret haux
    simp only [performHandshake, haux]
    rw [if_neg (by simp [hret])]
  · intro hret haux
    simp only [performHandshake, haux]
    rw [if_neg (by simp [hret])]

/-- Witness for claim C7: the handshake of scenario A, with capability
dictionary entries deviceinfo and processcontrol, succeeds and stores
exactly those keys. -/
theorem c7_handshake_witness :
    (performHandshake freshSession ⟨0, 1, some (PValue.str notifySel),
      some [AuxArg.obj (PValue.dict [("deviceinfo", 1), ("processcontrol", 1)])]⟩).2 =
        none ∧
    supportedKeys (performHandshake freshSession ⟨0, 1, some (PValue.str notifySel),
      some [AuxArg.obj (PValue.dict [("deviceinfo", 1), ("processcontrol", 1)])]⟩).1 =
        ["deviceinfo", "processcontrol"] := by
  have h := (c7_handshake freshSession ⟨0, 1, some (PValue.str notifySel),
    some [AuxArg.obj (PValue.dict [("deviceinfo", 1), ("processcontrol", 1)])]⟩).1
    rfl (AuxArg.obj (PValue.dict [("deviceinfo", 1), ("processcontrol", 1)])) []
    [("deviceinfo", 1), ("processcontrol", 1)] rfl rfl (by decide)
  exact ⟨h.1, by rw [h.2.2.1]; decide⟩

theorem performHandshake_fst_of_fail (st : SessionState) (inb : InboundMsg)
    (h : (performHandshake st inb).2 ≠ none) :
    (performHandshake st inb).1 =
      recvUpdate (sendMessage st 0 (some notifySel)
        (some [AuxArg.obj capMap]) false) inb := by
  by_cases hret : inb.ret = some (PValue.str notifySel)
  · cases haux : inb.aux with
    | none =>
      simp only [performHandshake, haux]
      rw [if_neg (by simp [hret])]
    | some l =>
      cases l with
      | nil =>
        simp only [performHandshake, haux]
        rw [if_neg (by simp [hret])]
      | cons e rest =>
        cases hval : auxValue e with
        | null =>
          simp only [performHandshake, haux, hval]
          rw [if_neg (by simp [hret])]
        | int n =>
          simp only [performHandshake, haux, hval]
          rw [if_neg (by simp [hret])]
        | str s =>
          simp only [performHandshake, haux, hval]
          rw [if_neg (by simp [hret])]
        | dict d =>
          cases hde : d.isEmpty with
          | true =>
            simp only [performHandshake, haux, hval, hde]
            rw [if_neg (by simp [hret])]
            simp
          | false =>
            exfalso
            apply h
            simp only [performHandshake, haux, hval, hde]
            rw [if_neg (by simp [hret])]
            simp
  · simp only [performHandshake]
    rw [if_pos (by simp [hret])]

/-- Claim C10: a failed perform_handshake leaves supported_identifiers and
the channel table as they were; on a fresh session (both empty) every
subsequent make_channel call fails the supported-identifier assertion, so
no channel proxy can exist. -/
theorem c10_failed_handshake_state (st : SessionState) (inb : InboundMsg) (e : HsError)
    (hfail : (performHandshake st inb).2 = some e) :
    (performHandshake st inb).1.supported_identifiers = st.supported_identifiers ∧
    (performHandshake st inb).1.channels = st.channels ∧
    (st.supported_identifiers = [] → ∀ ident inb2,
      makeChannel (performHandshake st inb).1 ident inb2 =
        Except.error MCError.notSupported) := by
  have hne : (performHandshake st inb).2 ≠ none := by rw [hfail]; simp
  have hfst := performHandshake_fst_of_fail st inb hne
  rw [hfst]
  have hflds := recvUpdate_fields (sendMessage st 0 (some notifySel)
    (some [AuxArg.obj capMap]) false) inb
  refine ⟨?_, ?_, ?_⟩
  · rw [hflds.2.1]
    rfl
  · rw [hflds.2.2.1]
    rfl
  · intro hempty ident inb2
    have hsup : supportedKeys (recvUpdate (sendMessage st 0 (some notifySel)
        (some [AuxArg.obj capMap]) false) inb) = [] := by
      unfold supportedKeys
      rw [hflds.2.1]
      show st.supported_identifiers.map Prod.fst = []
      rw [hempty]
      rfl
    simp only [makeChannel]
    rw [if_neg (by rw [hsup]; simp)]

/-- Witness for claim C10: a handshake answered with a null selector fails
and leaves a fresh session with no capabilities and no channels, so
make_channel refuses deviceinfo. -/
theorem c10_failed_handshake_state_witness :
    (performHandshake freshSession ⟨0, 1, none, none⟩).1.supported_identifiers = [] ∧
    (performHandshake freshSession ⟨0, 1, none, none⟩).1.channels = [] ∧
    makeChannel (performHandshake freshSession ⟨0, 1, none, none⟩).1
      "deviceinfo" ⟨0, 2, none, none⟩ = Except.error MCError.notSupported := by
  have h := c10_failed_handshake_state freshSession ⟨0, 1, none, none⟩
    HsError.invalidAnswer (by decide)
  exact ⟨h.1, h.2.1, h.2.2 rfl "deviceinfo" ⟨0, 2, none, none⟩⟩

/- ===== make_channel (claim C8) ===== -/

/-- Claim C8: make_channel fails when the identifier is not a supported
capability key; the first successful call allocates the next channel code
(one more than the current counter, so 1 on a fresh session), sends the
channel request on channel 0 with an INT64 code and an OBJECT identifier
expecting a reply, requires a null return, caches the code, and a later
call with the same identifier returns the same code from the unchanged
state, writing nothing to the transport; a non-null return fails the
assertion. -/
theorem c8_make_channel (st : SessionState) (ident : String) (inb inb2 : InboundMsg) :
    (ident ∉ supportedKeys st →
      makeChannel st ident inb = Except.error MCError.notSupported) ∧
    (ident ∈ supportedKeys st → chanLookup st.channels ident = none → inb.ret = none →
      ∃ st2, makeChannel st ident inb =
          Except.ok (st2, st.last_channel_code + 1) ∧
        st2.sent = st.sent ++ [⟨st.cur_message + 1, 0, some requestChannelSel,
          some [AuxArg.int64 (Int.ofNat (st.last_channel_code + 1)),
            AuxArg.obj (PValue.str ident)], true⟩] ∧
        st2.last_channel_code = st.last_channel_code + 1 ∧
        chanLookup st2.channels ident = some (st.last_channel_code + 1) ∧
        st2.supported_identifiers = st.supported_identifiers ∧
        makeChannel st2 ident inb2 = Except.ok (st2, st.last_channel_code + 1)) ∧
    (ident ∈ supportedKeys st → chanLookup st.channels ident = none →
      ∀ v, inb.ret = some v →
        makeChannel st ident inb = Except.error MCError.replyNotNull) := by
  refine ⟨?_, ?_, ?_⟩
  · intro hmem
    simp only [makeChannel]
    rw [if_neg hmem]
  · intro hmem hlook hret
    simp only [makeChannel]
    rw [if_pos hmem]
    simp only [hlook, hret]
    generalize hY : recvUpdate (sendMessage
      { st with last_channel_code := st.last_channel_code + 1 } 0 (some requestChannelSel)
      (some [AuxArg.int64 (Int.ofNat (st.last_channel_code + 1)),
        AuxArg.obj (PValue.str ident)]) true) inb = Y
    have h1 : Y.sent = st.sent ++ [⟨st.cur_message + 1, 0, some requestChannelSel,
        some [AuxArg.int64 (Int.ofNat (st.last_channel_code + 1)),
          AuxArg.obj (PValue.str ident)], true⟩] := by
      rw [← hY, (recvUpdate_fields _ _).1]
      rfl
    have h2 : Y.last_channel_code = st.last_channel_code + 1 := by
      rw [← hY, (recvUpdate_fields _ _).2.2.2]
      rfl
    have h3 : Y.channels = st.channels := by
      rw [← hY, (recvUpdate_fields _ _).2.2.1]
      rfl
    have h4 : Y.supported_identifiers = st.supported_identifiers := by
      rw [← hY, (recvUpdate_fields _ _).2.1]
      rfl
    have h5 : chanLookup (Y.channels ++ [(ident, st.last_channel_code + 1)]) ident =
        some (st.last_channel_code + 1) := by
      rw [h3]
      exact chanLookup_append_none _ _ _ hlook
    refine ⟨{ Y with channels := Y.channels ++ [(ident, st.last_channel_code + 1)] },
      rfl, h1, h2, h5, h4, ?_⟩
    have h6 : chanLookup ({ Y with channels :=
        Y.channels ++ [(ident, st.last_channel_code + 1)] } : SessionState).channels ident =
        some (st.last_channel_code + 1) := h5
    have hsupZ : ident ∈ supportedKeys ({ Y with channels :=
        Y.channels ++ [(ident, st.last_channel_code + 1)] } : SessionState) := by
      have hk : supportedKeys ({ Y with channels :=
          Y.channels ++ [(ident, st.last_channel_code + 1)] } : SessionState) =
          supportedKeys st := by
        unfold supportedKeys
        rw [show ({ Y with channels := Y.channels ++ [(ident, st.last_channel_code + 1)]
          } : SessionState).supported_identifiers = Y.supported_identifiers from rfl, h4]
      rw [hk]
      exact hmem
    simp only [makeChannel]
    rw [if_pos hsupZ]
    simp only [h6]
  · intro hmem hlook v hret
    simp only [makeChannel]
    rw [if_pos hmem]
    simp only [hlook, hret]

/-- Witness for claim C8: on a session that supports deviceinfo with an
empty channel table and counters at zero, make_channel allocates code 1,
sends the request, caches, and the repeated call returns the same result
without sending. -/
theorem c8_make_channel_witness :
    ∃ st2, makeChannel (⟨0, 0, [("deviceinfo", 1)], [], []⟩ : SessionState)
        "deviceinfo" ⟨0, 1, none, none⟩ = Except.ok (st2, 1) ∧
      st2.sent = [] ++ [⟨1, 0, some requestChannelSel,
        some [AuxArg.int64 (Int.ofNat 1), AuxArg.obj (PValue.str "deviceinfo")], true⟩] ∧
      st2.last_channel_code = 1 ∧
      chanLookup st2.channels "deviceinfo" = some 1 ∧
      st2.supported_identifiers = [("deviceinfo", 1)] ∧
      makeChannel st2 "deviceinfo" ⟨0, 2, none, none⟩ = Except.ok (st2, 1) :=
  (c8_make_channel (⟨0, 0, [("deviceinfo", 1)], [], []⟩ : SessionState)
    "deviceinfo" ⟨0, 1, none, none⟩ ⟨0, 2, none, none⟩).2.1
    (by decide) rfl rfl

/- ===== network_monitor stop (claim C9) ===== -/

/-- Claim C9, amended: the cleanup path of the network_monitor stream
sends stopMonitoring on the same channel on which startMonitoring was
sent, but through the proxy call with no arguments, so send_message runs
with its DEFAULT expects_reply of true, not false as the claim states. -/
theorem c9_stop_monitoring (st : SessionState) (ch : Int) :
    (networkMonitorStart st ch).sent =
      st.sent ++ [⟨st.cur_message + 1, ch, some "startMonitoring", none, false⟩] ∧
    (networkMonitorStop st ch).sent =
      st.sent ++ [⟨st.cur_message + 1, ch, some "stopMonitoring", none, true⟩] :=
  ⟨rfl, rfl⟩

/-- Counterexample for claim C9 as stated: on a fresh session the
stopMonitoring message written by the cleanup path carries expects_reply
true, not the claimed false. -/
theorem c9_counterexample :
    (networkMonitorStop freshSession 3).sent =
      [(⟨1, 3, some "stopMonitoring", none, true⟩ : SentMessage)] ∧
    ((networkMonitorStop freshSession 3).sent.map SentMessage.expectsReply) ≠ [false] := by
  refine ⟨rfl, by decide⟩
